import Mathlib

/-!
Verification of the red-zone intrusion detection core of yolo_camera.py
(repository HydraCat-Digital-Twin).

The embedding below translates the frame loop of yolo_camera.py into Lean:

* machine floats (detection confidences, the 0.6 threshold) are modelled as
  exact rationals;
* the external collaborators (YOLO detector, camera, OpenCV drawing, the
  filesystem, the json library) appear only through their interfaces: the
  detector output is a list of detections per frame, cap.read success and the
  success of the log append and of cv2.imwrite are boolean inputs of each
  frame, and json.dumps followed by json.loads is taken to be the identity on
  the JSON document tree, so serialization is modelled at the level of that
  tree;
* a Python exception that the script does not catch (the script has no
  try or except at all) is modelled as a crashed outcome that stops the run
  before cap.release() on line 190 is reached.
-/

namespace YoloCamera

/-- A bounding box plus label and confidence as produced for one YOLO box by
lines 64 to 67 of yolo_camera.py: x1, y1, x2, y2 are the integer corner
coordinates, conf the confidence and label the class name. -/
structure Detection where
  x1 : ℤ
  y1 : ℤ
  x2 : ℤ
  y2 : ℤ
  conf : ℚ
  label : String
deriving DecidableEq

/-- The rectangular red zone, source line 10. -/
structure Zone where
  x1 : ℤ
  y1 : ℤ
  x2 : ℤ
  y2 : ℤ
deriving DecidableEq

/-- RED_ZONE of source line 10. -/
def RED_ZONE : Zone := ⟨200, 150, 450, 350⟩

/-- CONFIDENCE_THRESHOLD of source line 9: the float 0.6, modelled as the
rational 6/10. -/
def CONFIDENCE_THRESHOLD : ℚ := mkRat 6 10

/-- Bounding box center of source line 74: cx, cy = (x1 + x2) // 2,
(y1 + y2) // 2. Python // on integers is floor division, which is Int.fdiv. -/
def detCenter (d : Detection) : ℤ × ℤ :=
  ((d.x1 + d.x2).fdiv 2, (d.y1 + d.y2).fdiv 2)

/-- The inside_zone test of source lines 77 to 80: both coordinate ranges are
inclusive on both ends. -/
def insideZone (z : Zone) (c : ℤ × ℤ) : Bool :=
  decide (z.x1 ≤ c.1) && decide (c.1 ≤ z.x2) &&
    decide (z.y1 ≤ c.2) && decide (c.2 ≤ z.y2)

/-- Nearest integer to the fraction n / d (d positive) with ties to even, the
rounding used by Python round applied to an exact rational value: f is the
floor of n / d, and 2 * rem compared with d decides whether the fractional
part is below, above or exactly one half. -/
def roundHalfToEven (n d : ℤ) : ℤ :=
  let f := n.fdiv d
  let rem := n - f * d
  if 2 * rem < d then f
  else if d < 2 * rem then f + 1
  else if f % 2 = 0 then f else f + 1

/-- round(conf, 2) of source line 93: rounding to two decimal places. The
argument q equals q.num / q.den, so q * 100 equals (q.num * 100) / q.den. -/
def round2 (q : ℚ) : ℚ := mkRat (roundHalfToEven (q.num * 100) (q.den : ℤ)) 100

/-- One element of detections_in_zone as appended by source lines 91 to 96:
name, rounded confidence, a timestamp string and the raw box corners. -/
structure ZoneRecord where
  name : String
  confidence : ℚ
  timestamp : String
  coords : ℤ × ℤ × ℤ × ℤ
deriving DecidableEq

/-- The dictionary built on source lines 91 to 96 for a detection that passed
the zone test. The timestamp string of line 68 is passed in as a parameter
since datetime.now() is an external effect. -/
def toZoneRecord (ts : String) (d : Detection) : ZoneRecord :=
  ⟨d.label, round2 d.conf, ts, (d.x1, d.y1, d.x2, d.y2)⟩

/-- The per-frame zone filter of source lines 60 to 96: walk the detector
output in order, skip a detection when conf < CONFIDENCE_THRESHOLD (line 70),
otherwise append its record when its center is inside the zone (line 90).
The zone and threshold globals are parameters here so that the theorems can
quantify over them. -/
def classify (z : Zone) (thr : ℚ) (ts : String) : List Detection → List ZoneRecord
  | [] => []
  | d :: rest =>
    if d.conf < thr then classify z thr ts rest
    else if insideZone z (detCenter d) then
      toZoneRecord ts d :: classify z thr ts rest
    else classify z thr ts rest

/-- The condition under which one detection contributes a record, read off the
same lines 70 to 90 of the source. -/
def qualifies (z : Zone) (thr : ℚ) (d : Detection) : Bool :=
  if d.conf < thr then false else insideZone z (detCenter d)

/-- The two transition events of the occupancy state machine. -/
inductive ZEvent where
  | enter : ZEvent
  | leave : ZEvent
deriving DecidableEq

/-- One evaluation of the entry and exit logic of source lines 98 to 139,
restricted to the state variable alert_active and the emitted events. The
state is a boolean: true is OCCUPIED (alert_active), false is EMPTY. An ENTER
event fires exactly on lines 101 to 103, a LEAVE event exactly on lines 125
to 139. -/
def stepOccupancy (alertActive objectInZone : Bool) : Bool × List ZEvent :=
  if objectInZone then
    if alertActive then (true, []) else (true, [ZEvent.enter])
  else
    if alertActive then (false, [ZEvent.leave]) else (false, [])

/-- The occupancy state machine run over a sequence of per-frame occupancy
booleans, returning the final state and the emitted event sequence. -/
def runOccupancy (alertActive : Bool) : List Bool → Bool × List ZEvent
  | [] => (alertActive, [])
  | o :: rest =>
    let s := stepOccupancy alertActive o
    let r := runOccupancy s.1 rest
    (r.1, s.2 ++ r.2)

/-- A JSON document tree, the shape of the Python dictionaries handed to
json.dumps on lines 119 and 136. json.dumps followed by json.loads is the
identity on this tree, so the round trip through the log file is modelled as
structural extraction from the tree. -/
inductive Json where
  | str : String → Json
  | num : ℚ → Json
  | arr : List Json → Json
  | obj : List (String × Json) → Json

/-- The coords tuple of a record, serialized as a four element JSON array. -/
def coordsJson (c : ℤ × ℤ × ℤ × ℤ) : Json :=
  Json.arr [Json.num (c.1 : ℚ), Json.num (c.2.1 : ℚ),
    Json.num (c.2.2.1 : ℚ), Json.num (c.2.2.2 : ℚ)]

/-- One element of the objects array of the entry alert, source lines 111 to
115: only name, confidence and coords are copied from the record. -/
def objectJson (r : ZoneRecord) : Json :=
  Json.obj [("name", Json.str r.name), ("confidence", Json.num r.confidence),
    ("coords", coordsJson r.coords)]

/-- The entry alert dictionary of source lines 108 to 116. -/
def mkEnterAlert (ts : String) (recs : List ZoneRecord) : Json :=
  Json.obj [("event", Json.str "Object ENTERED red zone"),
    ("timestamp", Json.str ts),
    ("objects", Json.arr (recs.map objectJson))]

/-- The exit dictionary of source lines 130 to 133. -/
def mkLeaveAlert (ts : String) : Json :=
  Json.obj [("event", Json.str "Object LEFT red zone"), ("timestamp", Json.str ts)]

/-- Key lookup in a parsed JSON object, first binding wins. -/
def lookupField : List (String × Json) → String → Option Json
  | [], _ => none
  | (k, v) :: rest, key => if k = key then some v else lookupField rest key

/-- Field access on a parsed JSON value. -/
def Json.getField : Json → String → Option Json
  | Json.obj fs, key => lookupField fs key
  | _, _ => none

/-- Read a JSON value back as a string. -/
def Json.asString : Json → Option String
  | Json.str s => some s
  | _ => none

/-- Read a JSON value back as an integer, as json.loads does for a number
written without a fractional part. -/
def Json.asInt : Json → Option ℤ
  | Json.num q => if q.den = 1 then some q.num else none
  | _ => none

/-- Read a JSON value back as a number. -/
def Json.asRat : Json → Option ℚ
  | Json.num q => some q
  | _ => none

/-- Parse a coords value back into the four corner coordinates. -/
def parseCoords : Json → Option (ℤ × ℤ × ℤ × ℤ)
  | Json.arr [a, b, c, d] =>
    a.asInt.bind fun p1 => b.asInt.bind fun p2 => c.asInt.bind fun p3 =>
      d.asInt.bind fun p4 => some (p1, p2, p3, p4)
  | _ => none

/-- Parse one element of the objects array back into label, confidence and
coordinates. -/
def parseObject (j : Json) : Option (String × ℚ × (ℤ × ℤ × ℤ × ℤ)) :=
  (j.getField "name").bind fun n => n.asString.bind fun name =>
  (j.getField "confidence").bind fun c => c.asRat.bind fun conf =>
  (j.getField "coords").bind fun cs => (parseCoords cs).bind fun co =>
  some (name, conf, co)

/-- Parse every element of the objects array, in order, failing if any
element fails. -/
def parseObjects : List Json → Option (List (String × ℚ × (ℤ × ℤ × ℤ × ℤ)))
  | [] => some []
  | j :: rest =>
    (parseObject j).bind fun o => (parseObjects rest).bind fun os => some (o :: os)

/-- Parse an entry log line back: check the event tag, then extract the
timestamp and the objects array. -/
def parseEnterLine (j : Json) : Option (String × List (String × ℚ × (ℤ × ℤ × ℤ × ℤ))) :=
  (j.getField "event").bind fun e => e.asString.bind fun tag =>
  if tag = "Object ENTERED red zone" then
    (j.getField "timestamp").bind fun t => t.asString.bind fun ts =>
    (j.getField "objects").bind fun o =>
    match o with
    | Json.arr objs => (parseObjects objs).bind fun parsed => some (ts, parsed)
    | _ => none
  else none

/-- The external inputs consumed by one iteration of the while loop of source
lines 44 to 188: whether cap.read returned a frame (line 45), the detector
output for the frame (line 59, flattened over results and boxes), the
timestamp string datetime.now() produces during the iteration, whether the
append to yolo_redzone_log.txt succeeds (lines 118 to 119 and 135 to 136, an
uncaught exception when it does not), the boolean cv2.imwrite returns for the
snapshot (line 122), and whether waitKey reports the quit key (line 187). -/
structure FrameInput where
  acquired : Bool
  dets : List Detection
  ts : String
  logOk : Bool
  snapOk : Bool
  quitKey : Bool
deriving DecidableEq

/-- A line appended to yolo_redzone_log.txt: the entry alert of lines 108 to
119 carries the detections_in_zone records, the exit line of lines 130 to 136
only its timestamp. -/
inductive LogLine where
  | enterLine : String → List ZoneRecord → LogLine
  | leaveLine : String → LogLine
deriving DecidableEq

/-- How a run of the while loop ends: the frame list of the model ran out,
cap.read failed (break on line 48), the quit key was pressed (break on line
188), or an uncaught exception from a failed log append killed the script. -/
inductive Outcome where
  | exhausted : Outcome
  | captureFail : Outcome
  | quitKey : Outcome
  | crashed : Outcome
deriving DecidableEq

/-- The observable trace of a run: how it ended, the log lines appended in
order, how many snapshot writes were attempted, how many times the Snapshot
saved message of line 123 was printed, how many snapshot specific errors were
reported, how many times cap.release (line 190) ran, and the final value of
alert_active. -/
structure RunResult where
  outcome : Outcome
  logLines : List LogLine
  snapshotsAttempted : ℕ
  snapshotSavedMessages : ℕ
  snapshotErrorsReported : ℕ
  releases : ℕ
  finalAlert : Bool
deriving DecidableEq

/-- The effect of one loop iteration: either the run stops here with a final
result, or it continues with a new alert_active value after contributing some
log lines and snapshot activity. -/
inductive StepResult where
  | halt : RunResult → StepResult
  | cont : Bool → List LogLine → ℕ → ℕ → StepResult

/-- One iteration of the while loop, source lines 44 to 188. cap.read failure
breaks out of the loop (line 48) and cap.release then runs once (line 190).
On a transition the log line is written first (lines 118 to 119 or 135 to
136); a failed append is an uncaught exception, so the run crashes with no
release and, on ENTER, before the snapshot is attempted. On ENTER the
snapshot write of line 122 is attempted and its boolean result is never
inspected: line 123 prints the Snapshot saved message unconditionally, and no
branch of the source reports a snapshot error, so snapOk is read nowhere.
The flag cleared_printed (lines 20 and 104) is written but never read, so it
is not modelled. -/
def stepFrame (alertActive : Bool) (f : FrameInput) : StepResult :=
  if f.acquired = false then
    StepResult.halt ⟨Outcome.captureFail, [], 0, 0, 0, 1, alertActive⟩
  else
    let dz := classify RED_ZONE CONFIDENCE_THRESHOLD f.ts f.dets
    let objectInZone := decide (0 < dz.length)
    if objectInZone then
      if alertActive = false then
        if f.logOk = false then
          StepResult.halt ⟨Outcome.crashed, [], 0, 0, 0, 0, true⟩
        else if f.quitKey then
          StepResult.halt ⟨Outcome.quitKey, [LogLine.enterLine f.ts dz], 1, 1, 0, 1, true⟩
        else
          StepResult.cont true [LogLine.enterLine f.ts dz] 1 1
      else if f.quitKey then
        StepResult.halt ⟨Outcome.quitKey, [], 0, 0, 0, 1, alertActive⟩
      else
        StepResult.cont alertActive [] 0 0
    else
      if alertActive = true then
        if f.logOk = false then
          StepResult.halt ⟨Outcome.crashed, [], 0, 0, 0, 0, true⟩
        else if f.quitKey then
          StepResult.halt ⟨Outcome.quitKey, [LogLine.leaveLine f.ts], 0, 0, 0, 1, false⟩
        else
          StepResult.cont false [LogLine.leaveLine f.ts] 0 0
      else if f.quitKey then
        StepResult.halt ⟨Outcome.quitKey, [], 0, 0, 0, 1, alertActive⟩
      else
        StepResult.cont alertActive [] 0 0

/-- The while loop run over a finite list of frame inputs, accumulating the
observable trace. When the model list runs out the loop is simply cut off
there with one release, standing for a run observed up to that point. -/
def runLoop (alertActive : Bool) : List FrameInput → RunResult
  | [] => ⟨Outcome.exhausted, [], 0, 0, 0, 1, alertActive⟩
  | f :: rest =>
    match stepFrame alertActive f with
    | StepResult.halt r => r
    | StepResult.cont a lines snaps msgs =>
      let r := runLoop a rest
      ⟨r.outcome, lines ++ r.logLines, snaps + r.snapshotsAttempted,
        msgs + r.snapshotSavedMessages, r.snapshotErrorsReported, r.releases,
        r.finalAlert⟩

/-- Replace the snapshot write result of a frame input, leaving every other
input unchanged. -/
def withSnapOk (b : Bool) (f : FrameInput) : FrameInput :=
  ⟨f.acquired, f.dets, f.ts, f.logOk, b, f.quitKey⟩

/-- A concrete detection matching scenario 1 of the spec: bbox (300, 200,
350, 250) with confidence 0.9, whose center (325, 225) is inside the default
zone. -/
def personDet : Detection := ⟨300, 200, 350, 250, mkRat 9 10, "person"⟩

section OccupancyLemmas

lemma stepOccupancy_fst (b x : Bool) : (stepOccupancy b x).1 = x := by
  cases b <;> cases x <;> rfl

lemma runOccupancy_final_state : ∀ (l : List Bool) (b x : Bool),
    (runOccupancy b (l ++ [x])).1 = x
  | [], b, x => by simp [runOccupancy, stepOccupancy_fst]
  | o :: l, b, x => by
    simp only [List.cons_append, runOccupancy]
    exact runOccupancy_final_state l _ x

lemma runOccupancy_head : ∀ (l : List Bool) (b : Bool) (e : ZEvent),
    (runOccupancy b l).2.head? = some e →
      e = (if b then ZEvent.leave else ZEvent.enter)
  | [], b, e => by simp [runOccupancy]
  | o :: l, b, e => by
    cases b <;> cases o <;>
      simp only [runOccupancy, stepOccupancy, if_true, if_false,
        List.nil_append, List.cons_append, List.head?, Bool.false_eq_true,
        ite_false, ite_true]
    · exact fun h => runOccupancy_head l false e h
    · intro h; injection h; simp_all
    · intro h; injection h; simp_all
    · exact fun h => runOccupancy_head l true e h

lemma runOccupancy_chain : ∀ (l : List Bool) (b : Bool),
    (runOccupancy b l).2.Chain' (fun x y => x ≠ y)
  | [], _ => by simp [runOccupancy]
  | o :: l, b => by
    cases b <;> cases o <;>
      simp only [runOccupancy, stepOccupancy, Bool.false_eq_true,
        ite_false, ite_true, List.nil_append, List.cons_append]
    · exact runOccupancy_chain l false
    · refine List.chain'_cons'.mpr ⟨?_, runOccupancy_chain l true⟩
      intro y hy
      have := runOccupancy_head l true y hy
      simp only [if_true, ite_true] at this
      simp [this]
    · refine List.chain'_cons'.mpr ⟨?_, runOccupancy_chain l false⟩
      intro y hy
      have := runOccupancy_head l false y hy
      simp only [Bool.false_eq_true, ite_false] at this
      simp [this]
    · exact runOccupancy_chain l true

lemma runOccupancy_count : ∀ (l : List Bool) (b : Bool),
    (runOccupancy b l).2.count ZEvent.enter + (if b then 1 else 0)
      = (runOccupancy b l).2.count ZEvent.leave
        + (if (runOccupancy b l).1 then 1 else 0)
  | [], b => by simp [runOccupancy]
  | o :: l, b => by
    cases b <;> cases o
    · simpa [runOccupancy, stepOccupancy] using runOccupancy_count l false
    · have ih := runOccupancy_count l true
      simp only [runOccupancy, stepOccupancy] at ih ⊢
      simp [List.count_cons]
      cases hb : (runOccupancy true l).1 <;> simp [hb] at ih ⊢ <;> omega
    · have ih := runOccupancy_count l false
      simp only [runOccupancy, stepOccupancy] at ih ⊢
      simp [List.count_cons]
      cases hb : (runOccupancy false l).1 <;> simp [hb] at ih ⊢ <;> omega
    · simpa [runOccupancy, stepOccupancy] using runOccupancy_count l true

end OccupancyLemmas

/-- Claim C1: fed any sequence of per-frame occupancy booleans from the
initial EMPTY state, the occupancy state machine emits a strictly alternating
event sequence that starts with ENTER (never two consecutive equal events),
and the number of ENTER events equals the number of LEAVE events plus one
exactly when the run ends in the OCCUPIED state, and equals it otherwise. -/
theorem claim_C1 (l : List Bool) :
    ((runOccupancy false l).2).Chain' (fun x y => x ≠ y) ∧
    ((runOccupancy false l).2 = [] ∨
      (runOccupancy false l).2.head? = some ZEvent.enter) ∧
    (runOccupancy false l).2.count ZEvent.enter
      = (runOccupancy false l).2.count ZEvent.leave
        + (if (runOccupancy false l).1 then 1 else 0) := by
  refine ⟨runOccupancy_chain l false, ?_, ?_⟩
  · cases h : (runOccupancy false l).2 with
    | nil => exact Or.inl rfl
    | cons e t =>
      refine Or.inr ?_
      have he := runOccupancy_head l false e (by rw [h]; rfl)
      simp only [Bool.false_eq_true, ite_false] at he
      simp [he]
  · have := runOccupancy_count l false
    simpa using this

/-- Claim C3: after every evaluation step, the occupancy state is OCCUPIED
exactly when the most recently evaluated frame contained at least one
qualifying detection; this holds from any starting state, so in particular
for every state reachable from the initial EMPTY state. -/
theorem claim_C3 (z : Zone) (thr : ℚ) (ts : String) (b : Bool)
    (frames : List (List Detection)) (f : List Detection) :
    ((runOccupancy b ((frames ++ [f]).map
        fun dets => decide (0 < (classify z thr ts dets).length))).1 = true)
      ↔ classify z thr ts f ≠ [] := by
  rw [List.map_append, List.map_singleton, runOccupancy_final_state]
  simp [List.length_pos]

/-- A concrete detection matching scenario 4 of the spec: bbox (150, 100,
250, 200), whose center is exactly the top left corner (200, 150) of the
default zone. -/
def cornerDet : Detection := ⟨150, 100, 250, 200, mkRat 9 10, "person"⟩

/-- Claim C2: a detection contributes a record exactly when its confidence is
at least the threshold (equality passes, strictly below is discarded) and its
center satisfies the inclusive bounds of the zone on both axes; in
particular, a center lying exactly on the corner (200, 150) of the default
zone counts as inside. -/
theorem claim_C2 :
    (∀ (z : Zone) (thr : ℚ) (ts : String) (d : Detection),
      toZoneRecord ts d ∈ classify z thr ts [d]
        ↔ (thr ≤ d.conf ∧ z.x1 ≤ (detCenter d).1 ∧ (detCenter d).1 ≤ z.x2 ∧
            z.y1 ≤ (detCenter d).2 ∧ (detCenter d).2 ≤ z.y2))
    ∧ detCenter cornerDet = (200, 150)
    ∧ toZoneRecord "" cornerDet ∈ classify RED_ZONE CONFIDENCE_THRESHOLD "" [cornerDet] := by
  refine ⟨?_, by decide, by decide⟩
  intro z thr ts d
  by_cases h1 : d.conf < thr
  · simp only [classify, if_pos h1]
    simp only [List.not_mem_nil, false_iff]
    intro hc
    exact absurd hc.1 (not_le.mpr h1)
  · by_cases h2 : insideZone z (detCenter d) = true
    · have h2' := h2
      simp only [insideZone, Bool.and_eq_true, decide_eq_true_eq] at h2'
      simp only [classify, if_neg h1, if_pos h2]
      simp only [List.mem_singleton, true_iff]
      exact ⟨not_lt.mp h1, h2'.1.1.1, h2'.1.1.2, h2'.1.2, h2'.2⟩
    · have h2' := h2
      simp only [insideZone, Bool.and_eq_true, decide_eq_true_eq] at h2'
      simp only [classify, if_neg h1, if_neg h2]
      simp only [List.not_mem_nil, false_iff]
      intro hc
      exact h2' ⟨⟨⟨hc.2.1, hc.2.2.1⟩, hc.2.2.2.1⟩, hc.2.2.2.2⟩

lemma classify_eq_filter_map (z : Zone) (thr : ℚ) (ts : String) :
    ∀ dets : List Detection,
      classify z thr ts dets = (dets.filter (qualifies z thr)).map (toZoneRecord ts)
  | [] => rfl
  | d :: rest => by
    simp only [classify, qualifies, List.filter_cons]
    by_cases h1 : d.conf < thr
    · simp [h1, classify_eq_filter_map z thr ts rest]
    · by_cases h2 : insideZone z (detCenter d) = true
      · simp [h1, h2, classify_eq_filter_map z thr ts rest]
      · simp [h1, h2, classify_eq_filter_map z thr ts rest]

/-- Claim C9: the zone filter is an order preserving filter: its output is
the image, record by record, of the sublist of the detector output selected
by the qualification predicate, so the records keep the detector order with
no reordering, duplication or fabrication. -/
theorem claim_C9 (z : Zone) (thr : ℚ) (ts : String) (dets : List Detection) :
    classify z thr ts dets = (dets.filter (qualifies z thr)).map (toZoneRecord ts)
    ∧ List.Sublist (dets.filter (qualifies z thr)) dets :=
  ⟨classify_eq_filter_map z thr ts dets, List.filter_sublist dets⟩

/-- A detection whose horizontal coordinate sum is negative: x1 = -3,
x2 = 0. -/
def negSumDet : Detection := ⟨-3, 0, 0, 0, mkRat 9 10, "person"⟩

/-- Counterexample to claim C8: the source computes the center with Python
floor division, so for the coordinate sum -3 it yields -2, while truncating
integer division toward zero yields -1. -/
theorem claim_C8_counterexample :
    (detCenter negSumDet).1 = -2 ∧
    Int.tdiv (negSumDet.x1 + negSumDet.x2) 2 = -1 ∧
    (detCenter negSumDet).1 ≠ Int.tdiv (negSumDet.x1 + negSumDet.x2) 2 := by
  decide

lemma fdiv_two_eq_floor (a : ℤ) : Int.fdiv a 2 = ⌊((a : ℚ)) / 2⌋ := by
  rw [Int.fdiv_eq_ediv _ (by norm_num)]
  rw [show ((2 : ℚ)) = (((2 : ℕ)) : ℚ) by norm_num]
  rw [Rat.floor_intCast_div_natCast]
  norm_num

lemma fdiv_eq_tdiv_of_nonneg {a : ℤ} (h : 0 ≤ a) : Int.fdiv a 2 = Int.tdiv a 2 := by
  rw [Int.fdiv_eq_ediv _ (by norm_num), Int.tdiv_eq_ediv h (by norm_num)]

/-- Claim C8 amended: the zone filter computes the center with floor integer
division (rounding toward negative infinity, the mathematical floor of the
halved sum); this agrees with truncating integer division whenever the
coordinate sum is nonnegative, but not on negative sums. -/
theorem claim_C8_amended (d : Detection) :
    (detCenter d).1 = ⌊(((d.x1 + d.x2 : ℤ)) : ℚ) / 2⌋ ∧
    (detCenter d).2 = ⌊(((d.y1 + d.y2 : ℤ)) : ℚ) / 2⌋ ∧
    (0 ≤ d.x1 + d.x2 → (detCenter d).1 = Int.tdiv (d.x1 + d.x2) 2) ∧
    (0 ≤ d.y1 + d.y2 → (detCenter d).2 = Int.tdiv (d.y1 + d.y2) 2) :=
  ⟨fdiv_two_eq_floor _, fdiv_two_eq_floor _,
    fun h => fdiv_eq_tdiv_of_nonneg h, fun h => fdiv_eq_tdiv_of_nonneg h⟩

/-- Witness for claim C8 amended at the concrete detection personDet, whose
coordinate sums are nonnegative. -/
theorem claim_C8_amended_witness :
    (detCenter personDet).1 = Int.tdiv (personDet.x1 + personDet.x2) 2 ∧
    (detCenter personDet).2 = Int.tdiv (personDet.y1 + personDet.y2) 2 :=
  ⟨(claim_C8_amended personDet).2.2.1 (by decide),
    (claim_C8_amended personDet).2.2.2 (by decide)⟩

lemma parseObject_objectJson (r : ZoneRecord) :
    parseObject (objectJson r) = some (r.name, r.confidence, r.coords) := by
  obtain ⟨n, cq, ts, a, b, c, d⟩ := r
  simp [parseObject, objectJson, Json.getField, lookupField, Json.asString,
    Json.asRat, parseCoords, coordsJson, Json.asInt, Rat.den_intCast,
    Rat.num_intCast]

lemma parseObjects_map : ∀ recs : List ZoneRecord,
    parseObjects (recs.map objectJson)
      = some (recs.map fun r => (r.name, r.confidence, r.coords))
  | [] => rfl
  | r :: rest => by
    simp [parseObjects, parseObject_objectJson, parseObjects_map rest]

/-- Claim C4: an entry alert serialized from any list of contributing
records, when parsed back from the logged JSON document, reproduces for every
record the same name, the same (already two decimal rounded) confidence and
the same four raw bounding box coordinates, together with the entry event tag
and the timestamp; the zone filter itself stores round2 of the raw
confidence in each record, so the round trip reproduces the rounded raw
confidences. -/
theorem claim_C4 (ts : String) (recs : List ZoneRecord) :
    parseEnterLine (mkEnterAlert ts recs)
      = some (ts, recs.map fun r => (r.name, r.confidence, r.coords)) := by
  simp [parseEnterLine, mkEnterAlert, Json.getField, lookupField,
    Json.asString, parseObjects_map]

section LoopLemmas

lemma stepFrame_withSnapOk (a b : Bool) (f : FrameInput) :
    stepFrame a (withSnapOk b f) = stepFrame a f := rfl

lemma runLoop_map_withSnapOk : ∀ (frames : List FrameInput) (a b : Bool),
    runLoop a (frames.map (withSnapOk b)) = runLoop a frames
  | [], _, _ => rfl
  | f :: rest, a, b => by
    simp only [List.map_cons, runLoop, stepFrame_withSnapOk]
    rcases h : stepFrame a f with r | ⟨a', lines, s, m⟩
    · rfl
    · simp [runLoop_map_withSnapOk rest a' b]

lemma stepFrame_halt_props (a : Bool) (f : FrameInput) (r : RunResult)
    (h : stepFrame a f = StepResult.halt r) :
    r.snapshotErrorsReported = 0 ∧
    (r.outcome = Outcome.captureFail →
      r.releases = 1 ∧ r.logLines = [] ∧ r.finalAlert = a) ∧
    (∀ ts objs, LogLine.enterLine ts objs ∈ r.logLines → objs ≠ []) := by
  simp only [stepFrame] at h
  split at h
  · injection h with h2
    subst h2
    simp
  · split at h
    · split at h
      · split at h
        · injection h with h2
          subst h2
          simp
        · split at h
          · injection h with h2
            subst h2
            rename_i hocc _ _ _
            simp only [decide_eq_true_eq] at hocc
            refine ⟨rfl, by simp, ?_⟩
            intro ts objs hmem
            simp only [RunResult.mk.injEq, List.mem_singleton,
              LogLine.enterLine.injEq] at hmem
            rcases hmem with ⟨_, h2⟩
            subst h2
            exact List.length_pos.mp hocc
          · exact absurd h (by simp)
      · split at h
        · injection h with h2
          subst h2
          simp
        · exact absurd h (by simp)
    · split at h
      · split at h
        · injection h with h2
          subst h2
          simp
        · split at h
          · injection h with h2
            subst h2
            simp
          · exact absurd h (by simp)
      · split at h
        · injection h with h2
          subst h2
          simp
        · exact absurd h (by simp)

lemma stepFrame_cont_props (a : Bool) (f : FrameInput) (a' : Bool)
    (lines : List LogLine) (s m : ℕ)
    (h : stepFrame a f = StepResult.cont a' lines s m) :
    ∀ ts objs, LogLine.enterLine ts objs ∈ lines → objs ≠ [] := by
  simp only [stepFrame] at h
  split at h
  · exact absurd h (by simp)
  · split at h
    · split at h
      · split at h
        · exact absurd h (by simp)
        · split at h
          · exact absurd h (by simp)
          · rename_i hocc _ _ _
            injection h with h1 h2
            subst h2
            simp only [decide_eq_true_eq] at hocc
            intro ts objs hmem
            simp only [List.mem_singleton, LogLine.enterLine.injEq] at hmem
            rcases hmem with ⟨_, h3⟩
            subst h3
            exact List.length_pos.mp hocc
      · split at h
        · exact absurd h (by simp)
        · injection h with h1 h2
          subst h2
          simp
    · split at h
      · split at h
        · exact absurd h (by simp)
        · split at h
          · exact absurd h (by simp)
          · injection h with h1 h2
            subst h2
            simp
      · split at h
        · exact absurd h (by simp)
        · injection h with h1 h2
          subst h2
          simp

lemma runLoop_snapErrors : ∀ (frames : List FrameInput) (a : Bool),
    (runLoop a frames).snapshotErrorsReported = 0
  | [], _ => rfl
  | f :: rest, a => by
    simp only [runLoop]
    rcases h : stepFrame a f with r | ⟨a', lines, s, m⟩
    · exact (stepFrame_halt_props a f r h).1
    · simpa using runLoop_snapErrors rest a'

end LoopLemmas

/-- Claim C5: when frame acquisition fails, the loop breaks without
evaluating the state machine (the final alert state is the state at loop
entry), no log line is written on that or any later iteration (the remaining
frames are never consumed), and the camera handle is released exactly once;
moreover, every run that ends in acquisition failure performs exactly one
release. -/
theorem claim_C5 :
    (∀ (a : Bool) (f : FrameInput) (rest : List FrameInput),
      f.acquired = false →
        runLoop a (f :: rest) = ⟨Outcome.captureFail, [], 0, 0, 0, 1, a⟩)
    ∧ (∀ (a : Bool) (frames : List FrameInput),
      (runLoop a frames).outcome = Outcome.captureFail →
        (runLoop a frames).releases = 1) := by
  constructor
  · intro a f rest h
    simp [runLoop, stepFrame, h]
  · intro a frames
    induction frames generalizing a with
    | nil => simp [runLoop]
    | cons f rest ih =>
      simp only [runLoop]
      rcases h : stepFrame a f with r | ⟨a', lines, s, m⟩
      · exact fun ho => ((stepFrame_halt_props a f r h).2.1 ho).1
      · exact fun ho => ih a' ho

/-- A frame input on which cap.read fails. -/
def deadFrame : FrameInput := ⟨false, [], "t", true, true, false⟩

/-- Witness for claim C5 at a concrete failing frame. -/
theorem claim_C5_witness :
    runLoop true [deadFrame] = ⟨Outcome.captureFail, [], 0, 0, 0, 1, true⟩ ∧
    (runLoop true [deadFrame]).releases = 1 :=
  ⟨claim_C5.1 true deadFrame [] (by decide),
    claim_C5.2 true [deadFrame] (by decide)⟩

/-- A frame input producing an ENTER transition whose snapshot write fails:
cv2.imwrite returns false, the log append succeeds. -/
def snapFailFrame : FrameInput := ⟨true, [personDet], "t", true, false, false⟩

/-- Counterexample to claim C6: on a frame whose ENTER snapshot write fails,
the log line is still appended (that half of the claim holds), but no
snapshot specific error is reported and the Snapshot saved message of line
123 is printed anyway, so the failure is silently ignored rather than
reported. -/
theorem claim_C6_counterexample :
    snapFailFrame.snapOk = false ∧
    (runLoop false [snapFailFrame]).logLines
      = [LogLine.enterLine "t" [toZoneRecord "t" personDet]] ∧
    (runLoop false [snapFailFrame]).snapshotsAttempted = 1 ∧
    (runLoop false [snapFailFrame]).snapshotErrorsReported = 0 ∧
    (runLoop false [snapFailFrame]).snapshotSavedMessages = 1 := by
  decide

/-- Claim C6 amended: the log line is appended before the snapshot write is
attempted, so the whole observable run is unchanged by the snapshot results
of every frame (in particular a snapshot failure never blocks the log line);
however, the snapshot result is never inspected, so no snapshot specific
error is ever reported. -/
theorem claim_C6_amended :
    (∀ (frames : List FrameInput) (a b : Bool),
      runLoop a (frames.map (withSnapOk b)) = runLoop a frames)
    ∧ (∀ (frames : List FrameInput) (a : Bool),
      (runLoop a frames).snapshotErrorsReported = 0) :=
  ⟨runLoop_map_withSnapOk, runLoop_snapErrors⟩

/-- A frame input on which an ENTER transition fires but the log append
fails. -/
def crashFrame : FrameInput := ⟨true, [personDet], "t", false, true, false⟩

/-- A well behaved frame input that would fire an ENTER transition with a
successful log append. -/
def nextFrame : FrameInput := ⟨true, [personDet], "t2", true, true, false⟩

/-- Counterexample to claim C7: when the log append fails on a transition,
the run ends with an uncaught exception: the next frame is never processed
(no log line at all is written, even though the second frame alone would have
produced one) and cap.release never runs, so the failure is not an error the
loop survives. -/
theorem claim_C7_counterexample :
    (runLoop false [crashFrame, nextFrame]).outcome = Outcome.crashed ∧
    (runLoop false [crashFrame, nextFrame]).logLines = [] ∧
    (runLoop false [crashFrame, nextFrame]).releases = 0 ∧
    (runLoop false [nextFrame]).logLines ≠ [] := by
  decide

/-- Claim C7 amended: a failed log append on a transition frame (one whose
occupancy differs from the current alert state) raises an uncaught exception
that terminates the whole run at that frame: nothing is logged, no snapshot
is attempted, the remaining frames are never processed and the camera handle
is never released; the event is lost. -/
theorem claim_C7_amended (a : Bool) (f : FrameInput) (rest : List FrameInput)
    (hacq : f.acquired = true) (hlog : f.logOk = false)
    (htrans : decide
      (0 < (classify RED_ZONE CONFIDENCE_THRESHOLD f.ts f.dets).length) ≠ a) :
    runLoop a (f :: rest) = ⟨Outcome.crashed, [], 0, 0, 0, 0, true⟩ := by
  cases a
  · have hocc : decide
        (0 < (classify RED_ZONE CONFIDENCE_THRESHOLD f.ts f.dets).length) = true := by
      cases hdec : decide
          (0 < (classify RED_ZONE CONFIDENCE_THRESHOLD f.ts f.dets).length)
      · exact absurd hdec htrans
      · rfl
    simp [runLoop, stepFrame, hacq, hlog, hocc]
  · have hocc : decide
        (0 < (classify RED_ZONE CONFIDENCE_THRESHOLD f.ts f.dets).length) = false := by
      cases hdec : decide
          (0 < (classify RED_ZONE CONFIDENCE_THRESHOLD f.ts f.dets).length)
      · rfl
      · exact absurd hdec htrans
    simp [runLoop, stepFrame, hacq, hlog, hocc]

/-- Witness for claim C7 amended at a concrete crashing frame. -/
theorem claim_C7_amended_witness :
    runLoop false [crashFrame] = ⟨Outcome.crashed, [], 0, 0, 0, 0, true⟩ :=
  claim_C7_amended false crashFrame [] (by decide) (by decide) (by decide)

/-- Claim C10: every ENTER line in the log of any run carries a non empty
objects list: the ENTER alert is only built when detections_in_zone is non
empty. -/
theorem claim_C10 : ∀ (a : Bool) (frames : List FrameInput) (ts : String)
    (objs : List ZoneRecord),
    LogLine.enterLine ts objs ∈ (runLoop a frames).logLines → objs ≠ [] := by
  intro a frames
  induction frames generalizing a with
  | nil => intro ts objs h; simp [runLoop] at h
  | cons f rest ih =>
    intro ts objs
    simp only [runLoop]
    rcases h : stepFrame a f with r | ⟨a', lines, s, m⟩
    · exact (stepFrame_halt_props a f r h).2.2 ts objs
    · intro hmem
      simp only [List.mem_append] at hmem
      rcases hmem with hl | hr
      · exact stepFrame_cont_props a f a' lines s m h ts objs hl
      · exact ih a' ts objs hr

/-- A frame input that fires an ENTER transition and continues. -/
def enterFrame : FrameInput := ⟨true, [personDet], "t", true, true, false⟩

/-- Witness for claim C10 at the concrete one frame run that logs one ENTER
line. -/
theorem claim_C10_witness : ([toZoneRecord "t" personDet] : List ZoneRecord) ≠ [] :=
  claim_C10 false [enterFrame] "t" [toZoneRecord "t" personDet] (by decide)

end YoloCamera
